import Mathlib

/-!
Verification of the mycurrency exchange-rate backend.

This file gives a shallow embedding of the rate-resolution core:
the exchange-rate store manager (`currencies/managers.py`), the provider
orchestrator (`currencies/services/provider_manager.py`), the service
facade (`currencies/services/exchange_rate.py`) and the mock adapter
(`external/api_clients/adapters/mock.py`), together with theorems that
settle the specification claims about them.

Machine numerics: the source computes with Python `decimal.Decimal`
under the default context (28 significant digits, ROUND_HALF_EVEN).
Rate values are embedded as rationals and every arithmetic step of the
source that can round is modelled explicitly (`decDiv`, `decMul`,
`quantize6`), so that a value produced here is the exact value the
Python code produces.
-/

namespace MyCurrency

/-! ## Decimal arithmetic model -/

/-- Number of base-10 digits of `n`, with explicit recursion fuel
(`fuel = 100` covers every magnitude reachable in this development). -/
def digitCountAux : Nat → Nat → Nat
  | 0, _ => 0
  | fuel + 1, n => if n = 0 then 0 else digitCountAux fuel (n / 10) + 1

/-- Number of base-10 digits of `n` (0 for 0). -/
def digitCount (n : Nat) : Nat := digitCountAux 100 n

/-- Decide `10 ^ c ≤ n / d` for natural `n, d > 0` by cross-multiplying,
so only integer arithmetic is involved. -/
def tenPowLE (c : ℤ) (n d : Nat) : Bool :=
  if 0 ≤ c then d * 10 ^ c.toNat ≤ n else d ≤ n * 10 ^ (-c).toNat

/-- Round the fraction `a / b` (with `b > 0`) to the nearest integer,
ties to even (Python decimal ROUND_HALF_EVEN). Euclidean quotient and
remainder keep `0 ≤ r < b`, so the two candidates are `q` and `q + 1`
and the tie picks the even one, matching half-even on either sign. -/
def intRoundHalfEven (a b : ℤ) : ℤ :=
  let q := Int.ediv a b
  let r := Int.emod a b
  if 2 * r < b then q
  else if b < 2 * r then q + 1
  else if q % 2 = 0 then q else q + 1

/-- Round the fraction `a / b` (with `b > 0`) to the nearest integer,
ties away from zero (Python decimal ROUND_HALF_UP). Spec-side rounding,
used only to compare the code against the specification text. -/
def intRoundHalfUp (a b : ℤ) : ℤ :=
  let q := Int.ediv a b
  let r := Int.emod a b
  if 2 * r < b then q
  else if b < 2 * r then q + 1
  else if a < 0 then q else q + 1

/-- Round the positive value `n / d` (`n, d > 0` naturals) to `prec`
significant decimal digits, ties to even. `e` is the decimal exponent
(`10 ^ e ≤ n / d < 10 ^ (e + 1)`), found from the digit counts of `n`
and `d`; the value is scaled to `prec` digits, rounded, and scaled back. -/
def sigRoundPos (prec : Nat) (n d : Nat) : ℚ :=
  let c : ℤ := (digitCount n : ℤ) - (digitCount d : ℤ)
  let e : ℤ := if tenPowLE c n d then c else c - 1
  let shift : ℤ := (prec : ℤ) - 1 - e
  let a : ℤ := if 0 ≤ shift then (n : ℤ) * 10 ^ shift.toNat else (n : ℤ)
  let b : ℤ := if 0 ≤ shift then (d : ℤ) else (d : ℤ) * 10 ^ (-shift).toNat
  let m : ℤ := intRoundHalfEven a b
  if 0 ≤ -shift then mkRat (m * 10 ^ (-shift).toNat) 1
  else mkRat m (10 ^ shift.toNat)

/-- The value left by a Python `Decimal` operation whose exact result is
`num / den`, under the default context: rounded to `prec = 28`
significant digits, ties to even; exact whenever the exact result fits
in `prec` significant digits. `den = 0` (a `DivisionByZero` in Python)
is mapped to the junk value 0 and is unreachable in this development. -/
def sigRound (prec : Nat) (num den : ℤ) : ℚ :=
  if num = 0 ∨ den = 0 then 0
  else if (0 < num ∧ 0 < den) ∨ (num < 0 ∧ den < 0) then
    sigRoundPos prec num.natAbs den.natAbs
  else -sigRoundPos prec num.natAbs den.natAbs

/-- Python `Decimal` division under the default context: the exact
quotient rounded to 28 significant digits (exact whenever the quotient
terminates within 28 digits). Models `a / b` on `Decimal` operands. -/
def decDiv (a b : ℚ) : ℚ := sigRound 28 (a.num * (b.den : ℤ)) ((a.den : ℤ) * b.num)

/-- Python `Decimal` multiplication under the default context. -/
def decMul (a b : ℚ) : ℚ := sigRound 28 (a.num * b.num) ((a.den : ℤ) * (b.den : ℤ))

/-- Python `Decimal.quantize(Decimal("0.000001"))` with the default
context rounding (ROUND_HALF_EVEN): round to 6 fractional digits. -/
def quantize6 (x : ℚ) : ℚ := mkRat (intRoundHalfEven (x.num * 1000000) (x.den : ℤ)) 1000000

/-- Modelled from the spec: "converted_amount = amount × rate, rounded
half-up to a fixed decimal precision (6 fractional digits)". Spec-side
rounding used to compare `convert_amount` against the claimed
half-up behaviour. -/
def specHalfUp6 (x : ℚ) : ℚ := mkRat (intRoundHalfUp (x.num * 1000000) (x.den : ℤ)) 1000000

/-- ASCII uppercasing of a currency or provider code (Python `str.upper`
restricted to the ASCII codes used by this system). -/
def upper (s : String) : String := String.mk (s.data.map Char.toUpper)

/-! ## Data model

`ProviderRow` embeds a row of the `Provider` table (`currencies/models.py`),
`RateRow` a row of `CurrencyExchangeRate`, `ExchangeRateData` the pydantic
response model of `external/api_clients/adapters/base.py`. Valuation dates
are day indices (`Nat`). -/

structure ProviderRow where
  name : String
  priority : Nat
  is_active : Bool
deriving DecidableEq

structure RateRow where
  source : String
  target : String
  vdate : Nat
  rate_value : ℚ
  provider : String
deriving DecidableEq

structure ExchangeRateData where
  source_currency : String
  exchanged_currency : String
  valuation_date : Nat
  rate_value : ℚ
  provider_name : Option String
deriving DecidableEq

/-- Embeds the `ConversionResult` dataclass of `currencies/services/exchange_rate.py`. -/
structure ConversionResult where
  source_currency : String
  exchanged_currency : String
  rate : ℚ
  source_amount : ℚ
  exchanged_amount : ℚ
  valuation_date : Nat
deriving DecidableEq

/-- The database state the service reads and writes: the `Currency` table
(as its list of stored uppercase codes), the `CurrencyExchangeRate` table
and the `Provider` table, each in storage order. -/
structure ServiceState where
  currencies : List String
  rates : List RateRow
  providers : List ProviderRow
deriving DecidableEq

/-- Outcome of one adapter fetch against the external world: the rate a
provider returns, or the exception its adapter raises
(`APIClientError` subclasses versus any other exception). -/
inductive FetchOutcome where
  | success (rate : ℚ)
  | apiError (msg : String)
  | otherError (msg : String)
deriving DecidableEq

/-- Behaviour of the external world during one orchestration call:
what the adapter registered under each provider name would yield. -/
def Env : Type := String → FetchOutcome

/-- Python exceptions crossing the boundaries modelled here. -/
inductive PyErr where
  | apiClientError (msg : String)
  | valueError (msg : String)
  | otherError (msg : String)
  | allProvidersFailed (msg : String) (errors : List (String × String))
  | doesNotExist (what : String)
deriving DecidableEq

instance instDecEqExcept {ε α : Type} [DecidableEq ε] [DecidableEq α] :
    DecidableEq (Except ε α) := fun x y =>
  match x, y with
  | .ok a, .ok b =>
    match decEq a b with
    | isTrue h => isTrue (congrArg Except.ok h)
    | isFalse h => isFalse (fun hh => h (Except.ok.inj hh))
  | .error a, .error b =>
    match decEq a b with
    | isTrue h => isTrue (congrArg Except.error h)
    | isFalse h => isFalse (fun hh => h (Except.error.inj hh))
  | .ok _, .error _ => isFalse (fun hh => Except.noConfusion hh)
  | .error _, .ok _ => isFalse (fun hh => Except.noConfusion hh)

/-! ## Rate store manager (`currencies/managers.py`)

The `CurrencyExchangeRate` table is a `List RateRow` in storage order;
`filter(...).first()` becomes first match in that order (the uniqueness
constraint makes the match unique in reachable states). -/

/-- Embeds `self.filter(source_currency__code=s, exchanged_currency__code=t,
valuation_date=d).first()`. -/
def findRate : List RateRow → String → String → Nat → Option RateRow
  | [], _, _, _ => none
  | r :: rest, s, t, d =>
    if r.source = s ∧ r.target = t ∧ r.vdate = d then some r
    else findRate rest s t d

/-- Number of stored rows for the (source, target, date) triple. -/
def tripleCount : List RateRow → String → String → Nat → Nat
  | [], _, _, _ => 0
  | r :: rest, s, t, d =>
    (if r.source = s ∧ r.target = t ∧ r.vdate = d then 1 else 0) +
      tripleCount rest s t d

namespace CurrencyExchangeRateManager

/-- Embeds `CurrencyExchangeRateManager.BASE_CURRENCY_CODE`. -/
def BASE_CURRENCY_CODE : String := "USD"

/-- Embeds `CurrencyExchangeRateManager._calculate_cross_rate`
(`currencies/managers.py:72-116`): triangulate through USD; each `/`
is full-precision `Decimal` division. -/
def _calculate_cross_rate (rates : List RateRow) (s t : String) (d : Nat) :
    Option ℚ :=
  let base := BASE_CURRENCY_CODE
  if s = base then
    (findRate rates base t d).map (fun r => r.rate_value)
  else if t = base then
    match findRate rates base s d with
    | some r => some (decDiv 1 r.rate_value)
    | none => none
  else
    match findRate rates base s d, findRate rates base t d with
    | some sb, some tb => some (decDiv tb.rate_value sb.rate_value)
    | _, _ => none

/-- Embeds `CurrencyExchangeRateManager.get_rate` (`currencies/managers.py:27-70`):
identity, then direct row, then reciprocal of the inverse row, then
cross rate via the base currency. -/
def get_rate (rates : List RateRow) (s t : String) (d : Nat) : Option ℚ :=
  if s = t then some 1
  else
    match findRate rates s t d with
    | some row => some row.rate_value
    | none =>
      match findRate rates t s d with
      | some row => some (decDiv 1 row.rate_value)
      | none => _calculate_cross_rate rates s t d

/-- Embeds `CurrencyExchangeRateManager.store_rate` (`currencies/managers.py:228-257`),
i.e. `get_or_create` keyed by the (source, target, date) triple with the
rate and provider as `defaults`: returns (row, created) and the table
after the call. -/
def store_rate (rates : List RateRow) (s t : String) (d : Nat) (r : ℚ)
    (prov : String) : RateRow × Bool × List RateRow :=
  match findRate rates s t d with
  | some row => (row, false, rates)
  | none => (⟨s, t, d, r, prov⟩, true, rates ++ [⟨s, t, d, r, prov⟩])

end CurrencyExchangeRateManager

/-! ## Provider table manager (`currencies/managers.py:260-269`) -/

/-- Insert a provider into a priority-sorted list, keeping it after every
row of strictly smaller priority and before the first row of larger or
equal priority it meets; together with `sortByPrio` this is exactly a
stable sort by the `priority` column, the semantics of
`order_by("priority")` over rows delivered in storage order. -/
def insertByPrio (p : ProviderRow) : List ProviderRow → List ProviderRow
  | [] => [p]
  | q :: rest =>
    if p.priority ≤ q.priority then p :: q :: rest else q :: insertByPrio p rest

/-- Stable sort of provider rows by ascending priority. -/
def sortByPrio : List ProviderRow → List ProviderRow
  | [] => []
  | p :: rest => insertByPrio p (sortByPrio rest)

/-- Embeds `ProviderManager.get_active_ordered`
(`currencies/managers.py:263-265`): `filter(is_active=True)` then
`order_by("priority")` — priority only, with no further sort key. -/
def get_active_ordered (tbl : List ProviderRow) : List ProviderRow :=
  sortByPrio (tbl.filter (fun p => p.is_active))

/-- Embeds `Provider.objects.get(name=nm, is_active=True)` as used by the forced
path of the orchestrator. -/
def findProviderActive : List ProviderRow → String → Option ProviderRow
  | [], _ => none
  | p :: rest, nm =>
    if p.name = nm ∧ p.is_active then some p else findProviderActive rest nm

/-- Embeds `Provider.objects.get(name=nm)` as used by the service before storing. -/
def findProviderByName : List ProviderRow → String → Option ProviderRow
  | [], _ => none
  | p :: rest, nm => if p.name = nm then some p else findProviderByName rest nm

/-! ## Provider orchestrator (`currencies/services/provider_manager.py`) -/

/-- Contents of `ADAPTER_REGISTRY` after `_initialize_adapters()`
(`provider_manager.py:26-36`): exactly the two registered names. -/
def registry : List String := ["currencybeacon", "mock"]

/-- One adapter call for a provider row: `_get_adapter` raises
`ValueError` when the row's name is not registered; otherwise the
adapter's `get_exchange_rate_data` runs against the external world
(`env`), uppercases both codes, validates the rate strictly positive
(the pydantic `gt=0` constraint of `ExchangeRateData`), and reports
itself as the quote's provider. -/
def adapterFetch (env : Env) (p : ProviderRow) (s t : String) (d : Nat) :
    Except PyErr ExchangeRateData :=
  if registry.contains p.name then
    match env p.name with
    | .success r =>
      if 0 < r then
        .ok ⟨upper s, upper t, d, r, some p.name⟩
      else
        .error (.otherError ("rate must be greater than 0 for " ++ p.name))
    | .apiError m => .error (.apiClientError m)
    | .otherError m => .error (.otherError m)
  else
    .error (.valueError ("No adapter registered for provider " ++ p.name))

/-- The failure-map entry the sweep records for an exception
(`provider_manager.py:183-196`): `str(e)` for an `APIClientError`,
`"Unexpected error: ..."` for anything else. -/
def errEntry : PyErr → String
  | .apiClientError m => m
  | .valueError m => "Unexpected error: " ++ m
  | .otherError m => "Unexpected error: " ++ m
  | .allProvidersFailed m _ => "Unexpected error: " ++ m
  | .doesNotExist w => "Unexpected error: " ++ w

namespace ProviderManager

/-- The fallback loop of `ProviderManager.get_exchange_rate_data`
(`provider_manager.py:165-203`): try each provider in order, return the
first success, record each failure keyed by provider name in attempt
order, and raise the aggregate error when the list is exhausted. The
second component is the list of providers attempted, in order. -/
def sweepGo (env : Env) (s t : String) (d : Nat) :
    List ProviderRow → List (String × String) → List String →
    Except PyErr ExchangeRateData × List String
  | [], errs, att => (.error (.allProvidersFailed "All providers failed" errs), att)
  | p :: rest, errs, att =>
    match adapterFetch env p s t d with
    | .ok q => (.ok q, att ++ [p.name])
    | .error e => sweepGo env s t d rest (errs ++ [(p.name, errEntry e)]) (att ++ [p.name])

/-- Embeds `ProviderManager.get_exchange_rate_data`
(`provider_manager.py:111-203`). `if provider_name:` is a Python
truthiness test, so `some ""` takes the fallback sweep; the forced path
consults `Provider.objects.get(name=..., is_active=True)` and raises
`ValueError` when that lookup fails; an empty active list raises the
"No active providers configured" aggregate error before any fetch. The
second component is the list of providers attempted, in order. -/
def get_exchange_rate_data (tbl : List ProviderRow) (env : Env)
    (s t : String) (d : Nat) (provider_name : Option String) :
    Except PyErr ExchangeRateData × List String :=
  let forcedName : Option String :=
    match provider_name with
    | some nm => if nm = "" then none else some nm
    | none => none
  match forcedName with
  | some nm =>
    match findProviderActive tbl nm with
    | none => (.error (.valueError ("Provider " ++ nm ++ " not found or not active")), [])
    | some p => (adapterFetch env p s t d, [nm])
  | none =>
    let provs := get_active_ordered tbl
    if provs = [] then
      (.error (.allProvidersFailed "No active providers configured"
        [("configuration", "No active providers found in database")]), [])
    else
      sweepGo env s t d provs [] []

end ProviderManager

/-! ## Exchange rate service (`currencies/services/exchange_rate.py`) -/

namespace ExchangeRateService

/-- Embeds `ExchangeRateService._store_rate` (`exchange_rate.py:208-228`):
look both currencies up by code (`get_by_code` uppercases its argument;
stored codes are uppercase by `Currency.save`), store via
`store_rate`, and catch exactly `Currency.DoesNotExist`, leaving the
table unchanged on that failure. Returns the rate table after the call. -/
def _store_rate (st : ServiceState) (q : ExchangeRateData) (prow : ProviderRow) :
    List RateRow :=
  if st.currencies.contains (upper q.source_currency) ∧
      st.currencies.contains (upper q.exchanged_currency) then
    (CurrencyExchangeRateManager.store_rate st.rates
      (upper q.source_currency) (upper q.exchanged_currency)
      q.valuation_date q.rate_value prow.name).2.2
  else
    st.rates

/-- Embeds `ExchangeRateService.get_exchange_rate` (`exchange_rate.py:63-127`):
uppercase both codes; answer from the store when the resolver finds a
rate (building a quote with no provider name); otherwise delegate to the
orchestrator, then resolve the actually-used provider row with
`Provider.objects.get(name=provider)` — a lookup *outside* any
try/except, whose `DoesNotExist` propagates — and persist through
`_store_rate` before returning the fetched quote. Returns the quote and
the post-call state. -/
def get_exchange_rate (st : ServiceState) (env : Env) (s0 t0 : String)
    (d : Nat) (provider : Option String) :
    Except PyErr (ExchangeRateData × ServiceState) :=
  let s := upper s0
  let t := upper t0
  match CurrencyExchangeRateManager.get_rate st.rates s t d with
  | some r => .ok (⟨s, t, d, r, none⟩, st)
  | none =>
    match (ProviderManager.get_exchange_rate_data st.providers env s t d provider).1 with
    | .error e => .error e
    | .ok q =>
      let effProv : Option String :=
        match provider with
        | none => q.provider_name
        | some nm => some nm
      match effProv with
      | none => .error (.doesNotExist "Provider")
      | some nm =>
        match findProviderByName st.providers nm with
        | none => .error (.doesNotExist "Provider")
        | some prow => .ok (q, { st with rates := _store_rate st q prow })

/-- Embeds `ExchangeRateService.convert_amount` (`exchange_rate.py:129-168`):
default the date to today, resolve the rate with no forced provider,
multiply (`Decimal` multiplication) and quantize once to 6 fractional
digits with the context default rounding. -/
def convert_amount (st : ServiceState) (env : Env) (s t : String)
    (amount : ℚ) (dArg : Option Nat) (today : Nat) :
    Except PyErr (ConversionResult × ServiceState) :=
  let d := dArg.getD today
  match get_exchange_rate st env s t d none with
  | .error e => .error e
  | .ok (q, st2) =>
    .ok (⟨upper s, upper t, q.rate_value, amount,
          quantize6 (decMul amount q.rate_value), d⟩, st2)

end ExchangeRateService

/-! ## Mock adapter (`external/api_clients/adapters/mock.py`) -/

/-- The contract of `random.uniform(0.5, 1.5)`: the drawn value lies in
the closed interval. The draw is a function of the global PRNG state,
not of the fetch arguments. -/
def uniformContract (u : ℚ) : Prop := mkRat 1 2 ≤ u ∧ u ≤ mkRat 3 2

instance (u : ℚ) : Decidable (uniformContract u) := by
  unfold uniformContract; infer_instance

namespace MockAdapter

/-- Embeds `MockAdapter.get_exchange_rate_data` (`mock.py:27-49`) with the PRNG
draw made explicit: the rate is the draw formatted to 6 decimal places
(`Decimal(f"{random_rate:.6f}")`), the codes are uppercased, and the
quote reports provider `"mock"`. No network is involved; the only
non-input dependency is the draw `u`. -/
def get_exchange_rate_data (u : ℚ) (s t : String) (d : Nat) :
    ExchangeRateData :=
  ⟨upper s, upper t, d, quantize6 u, some "mock"⟩

end MockAdapter

/-! ## Helper lemmas on the store -/

theorem findRate_append_none {l1 l2 : List RateRow} {s t : String} {d : Nat}
    (h : findRate l1 s t d = none) :
    findRate (l1 ++ l2) s t d = findRate l2 s t d := by
  induction l1 with
  | nil => simp
  | cons r rest ih =>
    by_cases hc : r.source = s ∧ r.target = t ∧ r.vdate = d
    · simp [findRate, hc] at h
    · simp only [findRate, hc, if_false, List.cons_append, if_neg hc] at h ⊢
      exact ih h

theorem tripleCount_append (l1 l2 : List RateRow) (s t : String) (d : Nat) :
    tripleCount (l1 ++ l2) s t d = tripleCount l1 s t d + tripleCount l2 s t d := by
  induction l1 with
  | nil => simp [tripleCount]
  | cons r rest ih => simp [tripleCount, ih, Nat.add_assoc]

theorem tripleCount_zero_of_none {l : List RateRow} {s t : String} {d : Nat}
    (h : findRate l s t d = none) : tripleCount l s t d = 0 := by
  induction l with
  | nil => simp [tripleCount]
  | cons r rest ih =>
    by_cases hc : r.source = s ∧ r.target = t ∧ r.vdate = d
    · simp [findRate, hc] at h
    · simp only [findRate, if_neg hc] at h
      simp [tripleCount, hc, ih h]

/-! ## Claim C4 — cross-rate triangulation -/

/-- C4: for a query (X, Y, d) with X ≠ Y and neither equal to the base
currency USD, with no direct and no inverse record stored, resolution
yields exactly the decimal quotient q / p of the two stored base legs
(base→Y, d) = q and (base→X, d) = p, and resolving (Y, X, d) yields
p / q; when either leg is missing, resolution returns not-found (`none`)
with no deeper multi-hop search. Division is the full-precision decimal
division `decDiv` the source performs. -/
theorem cross_rate_triangulation (rates : List RateRow) (X Y : String)
    (d : Nat) (rp rq : RateRow)
    (hXY : X ≠ Y) (hX : X ≠ "USD") (hY : Y ≠ "USD")
    (hdir : findRate rates X Y d = none) (hinv : findRate rates Y X d = none)
    (hp : findRate rates "USD" X d = some rp)
    (hq : findRate rates "USD" Y d = some rq) :
    CurrencyExchangeRateManager.get_rate rates X Y d =
      some (decDiv rq.rate_value rp.rate_value) ∧
    CurrencyExchangeRateManager.get_rate rates Y X d =
      some (decDiv rp.rate_value rq.rate_value) ∧
    (∀ rates2 : List RateRow,
      findRate rates2 X Y d = none → findRate rates2 Y X d = none →
      (findRate rates2 "USD" X d = none ∨ findRate rates2 "USD" Y d = none) →
      CurrencyExchangeRateManager.get_rate rates2 X Y d = none) := by
  refine ⟨?_, ?_, ?_⟩
  · simp [CurrencyExchangeRateManager.get_rate,
      CurrencyExchangeRateManager._calculate_cross_rate,
      CurrencyExchangeRateManager.BASE_CURRENCY_CODE,
      hXY, hX, hY, hdir, hinv, hp, hq]
  · simp [CurrencyExchangeRateManager.get_rate,
      CurrencyExchangeRateManager._calculate_cross_rate,
      CurrencyExchangeRateManager.BASE_CURRENCY_CODE,
      Ne.symm hXY, hX, hY, hdir, hinv, hp, hq]
  · intro rates2 h1 h2 h3
    rcases h3 with h3 | h3
    · cases hby : findRate rates2 "USD" Y d <;>
        simp [CurrencyExchangeRateManager.get_rate,
          CurrencyExchangeRateManager._calculate_cross_rate,
          CurrencyExchangeRateManager.BASE_CURRENCY_CODE,
          hXY, hX, hY, h1, h2, h3, hby]
    · cases hbx : findRate rates2 "USD" X d <;>
        simp [CurrencyExchangeRateManager.get_rate,
          CurrencyExchangeRateManager._calculate_cross_rate,
          CurrencyExchangeRateManager.BASE_CURRENCY_CODE,
          hXY, hX, hY, h1, h2, h3, hbx]

/-- Store used by the C4 witness: USD→GBP = 2 and USD→JPY = 3 on day 0. -/
def c4rates : List RateRow :=
  [⟨"USD", "GBP", 0, mkRat 2 1, "mock"⟩, ⟨"USD", "JPY", 0, mkRat 3 1, "mock"⟩]

/-- Witness for C4 at a concrete store: GBP→JPY resolves to 3/2 and
JPY→GBP to the 28-digit decimal quotient of 2/3. -/
theorem cross_rate_triangulation_witness :
    CurrencyExchangeRateManager.get_rate c4rates "GBP" "JPY" 0 = some (mkRat 3 2) ∧
    CurrencyExchangeRateManager.get_rate c4rates "JPY" "GBP" 0 =
      some (mkRat 6666666666666666666666666667 (10 ^ 28)) :=
  have h := cross_rate_triangulation c4rates "GBP" "JPY" 0
    ⟨"USD", "GBP", 0, mkRat 2 1, "mock"⟩ ⟨"USD", "JPY", 0, mkRat 3 1, "mock"⟩
    (by decide) (by decide) (by decide) (by decide) (by decide)
    (by decide) (by decide)
  ⟨h.1.trans (by decide), h.2.1.trans (by decide)⟩

/-! ## Claim C5 — inverse-rate reciprocal -/

/-- C5: for a stored rate (A→B, d) = r with no direct (B→A, d) record,
resolving (B→A, d) yields the reciprocal 1/r computed by full-precision
decimal division (`decDiv`, 28 significant digits) — not division
truncated to the 6-digit display precision, as the second conjunct
demonstrates on the reciprocal of 3. -/
theorem inverse_rate_reciprocal (rates : List RateRow) (A B : String)
    (d : Nat) (row : RateRow)
    (hBA : B ≠ A)
    (hdir : findRate rates B A d = none)
    (hinv : findRate rates A B d = some row) :
    CurrencyExchangeRateManager.get_rate rates B A d =
      some (decDiv 1 row.rate_value) ∧
    decDiv 1 (mkRat 3 1) ≠ quantize6 (decDiv 1 (mkRat 3 1)) := by
  constructor
  · simp [CurrencyExchangeRateManager.get_rate, hBA, hdir, hinv]
  · decide

/-- Witness for C5 at a concrete store: EUR→USD = 2 stored, USD→EUR
resolves to exactly 1/2. -/
theorem inverse_rate_reciprocal_witness :
    CurrencyExchangeRateManager.get_rate
      [⟨"EUR", "USD", 0, mkRat 2 1, "mock"⟩] "USD" "EUR" 0 = some (mkRat 1 2) :=
  have h := inverse_rate_reciprocal [⟨"EUR", "USD", 0, mkRat 2 1, "mock"⟩]
    "EUR" "USD" 0 ⟨"EUR", "USD", 0, mkRat 2 1, "mock"⟩
    (by decide) (by decide) (by decide)
  h.1.trans (by decide)

/-! ## Claim C8 — idempotent, non-mutating insert-if-absent -/

/-- C8: `store_rate` is insert-if-absent. When a row for the
(source, target, date) triple already exists, a subsequent store attempt
returns the pre-existing row with `created = false` and leaves the table
unchanged (first-written rate value and provider kept, whatever the new
values are); and starting from a table without the triple, the first
store creates the row (`created = true`), a duplicate store returns that
first-written row unchanged, and the table holds exactly one row for the
triple after either call. -/
theorem store_rate_idempotent (rates : List RateRow) (s t : String)
    (d : Nat) (r2 : ℚ) (p2 : String) (row : RateRow)
    (hex : findRate rates s t d = some row) :
    CurrencyExchangeRateManager.store_rate rates s t d r2 p2 = (row, false, rates) ∧
    (∀ (rates0 : List RateRow) (r1 : ℚ) (p1 : String),
      findRate rates0 s t d = none →
      (CurrencyExchangeRateManager.store_rate rates0 s t d r1 p1).2.1 = true ∧
      CurrencyExchangeRateManager.store_rate
          (CurrencyExchangeRateManager.store_rate rates0 s t d r1 p1).2.2 s t d r2 p2 =
        (⟨s, t, d, r1, p1⟩, false,
          (CurrencyExchangeRateManager.store_rate rates0 s t d r1 p1).2.2) ∧
      tripleCount (CurrencyExchangeRateManager.store_rate rates0 s t d r1 p1).2.2 s t d = 1 ∧
      tripleCount (CurrencyExchangeRateManager.store_rate
          (CurrencyExchangeRateManager.store_rate rates0 s t d r1 p1).2.2 s t d r2 p2).2.2 s t d = 1) := by
  constructor
  · simp [CurrencyExchangeRateManager.store_rate, hex]
  · intro rates0 r1 p1 h0
    have hsr : CurrencyExchangeRateManager.store_rate rates0 s t d r1 p1 =
        (⟨s, t, d, r1, p1⟩, true, rates0 ++ [⟨s, t, d, r1, p1⟩]) := by
      simp [CurrencyExchangeRateManager.store_rate, h0]
    have hfind : findRate (rates0 ++ [⟨s, t, d, r1, p1⟩]) s t d =
        some ⟨s, t, d, r1, p1⟩ := by
      rw [findRate_append_none h0]
      simp [findRate]
    have hcount : tripleCount (rates0 ++ [⟨s, t, d, r1, p1⟩]) s t d = 1 := by
      rw [tripleCount_append, tripleCount_zero_of_none h0]
      simp [tripleCount]
    refine ⟨by rw [hsr], ?_, ?_, ?_⟩
    · rw [hsr]
      simp [CurrencyExchangeRateManager.store_rate, hfind]
    · rw [hsr]
      exact hcount
    · rw [hsr]
      simp only [CurrencyExchangeRateManager.store_rate, hfind]
      exact hcount

/-- Witness for C8: with USD→EUR stored at rate 2 by provider mock, a
duplicate store with rate 9 and another provider returns the original
row, reports no creation, and leaves the single-row table unchanged. -/
theorem store_rate_idempotent_witness :
    CurrencyExchangeRateManager.store_rate
      [⟨"USD", "EUR", 0, mkRat 2 1, "mock"⟩] "USD" "EUR" 0 (mkRat 9 1) "currencybeacon" =
      (⟨"USD", "EUR", 0, mkRat 2 1, "mock"⟩, false, [⟨"USD", "EUR", 0, mkRat 2 1, "mock"⟩]) ∧
    tripleCount [⟨"USD", "EUR", 0, mkRat 2 1, "mock"⟩] "USD" "EUR" 0 = 1 :=
  have h := store_rate_idempotent [⟨"USD", "EUR", 0, mkRat 2 1, "mock"⟩]
    "USD" "EUR" 0 (mkRat 9 1) "currencybeacon" ⟨"USD", "EUR", 0, mkRat 2 1, "mock"⟩
    (by decide)
  ⟨h.1, by decide⟩

/-! ## Helper lemmas on the orchestrator -/

theorem adapterFetch_ok_name {env : Env} {p : ProviderRow} {s t : String}
    {d : Nat} {q : ExchangeRateData}
    (h : adapterFetch env p s t d = .ok q) : q.provider_name = some p.name := by
  unfold adapterFetch at h
  by_cases hr : registry.contains p.name
  · rw [if_pos hr] at h
    cases henv : env p.name with
    | success r =>
      simp only [henv] at h
      by_cases h0 : (0 : ℚ) < r
      · rw [if_pos h0] at h
        cases h
        rfl
      · rw [if_neg h0] at h
        cases h
    | apiError m => simp only [henv] at h; cases h
    | otherError m => simp only [henv] at h; cases h
  · rw [if_neg hr] at h
    cases h

theorem adapterFetch_not_aggregate (env : Env) (p : ProviderRow) (s t : String)
    (d : Nat) (m : String) (errs : List (String × String)) :
    adapterFetch env p s t d ≠ .error (.allProvidersFailed m errs) := by
  unfold adapterFetch
  by_cases hr : registry.contains p.name
  · rw [if_pos hr]
    cases henv : env p.name with
    | success r =>
      simp only [henv]
      by_cases h0 : (0 : ℚ) < r
      · rw [if_pos h0]; intro h; cases h
      · rw [if_neg h0]; intro h; cases h
    | apiError m2 => simp only [henv]; intro h; cases h
    | otherError m2 => simp only [henv]; intro h; cases h
  · rw [if_neg hr]; intro h; cases h

theorem sweepGo_prefix_ok (env : Env) (s t : String) (d : Nat)
    (q : ExchangeRateData) (p : ProviderRow) :
    ∀ (pre : List ProviderRow) (post : List ProviderRow)
      (errs : List (String × String)) (att : List String),
      (∀ x ∈ pre, ∃ e, adapterFetch env x s t d = .error e) →
      adapterFetch env p s t d = .ok q →
      ProviderManager.sweepGo env s t d (pre ++ p :: post) errs att =
        (.ok q, att ++ (pre.map ProviderRow.name ++ [p.name])) := by
  intro pre
  induction pre with
  | nil =>
    intro post errs att _ hp
    simp [ProviderManager.sweepGo, hp]
  | cons x rest ih =>
    intro post errs att hpre hp
    obtain ⟨e, he⟩ := hpre x (List.mem_cons_self x rest)
    have hrest : ∀ y ∈ rest, ∃ e2, adapterFetch env y s t d = .error e2 :=
      fun y hy => hpre y (List.mem_cons_of_mem x hy)
    simp only [List.cons_append, ProviderManager.sweepGo, he]
    have ih2 := ih post (errs ++ [(x.name, errEntry e)]) (att ++ [x.name]) hrest hp
    simpa using ih2

theorem sweepGo_all_fail (env : Env) (s t : String) (d : Nat)
    (f : ProviderRow → PyErr) :
    ∀ (l : List ProviderRow) (errs : List (String × String)) (att : List String),
      (∀ x ∈ l, adapterFetch env x s t d = .error (f x)) →
      ProviderManager.sweepGo env s t d l errs att =
        (.error (.allProvidersFailed "All providers failed"
          (errs ++ l.map (fun x => (x.name, errEntry (f x))))),
         att ++ l.map ProviderRow.name) := by
  intro l
  induction l with
  | nil =>
    intro errs att _
    simp [ProviderManager.sweepGo]
  | cons x rest ih =>
    intro errs att h
    have hx := h x (List.mem_cons_self x rest)
    have hrest : ∀ y ∈ rest, adapterFetch env y s t d = .error (f y) :=
      fun y hy => h y (List.mem_cons_of_mem x hy)
    simp only [ProviderManager.sweepGo, hx]
    rw [ih _ _ hrest]
    simp

theorem sweepGo_ok_mem (env : Env) (s t : String) (d : Nat)
    (q : ExchangeRateData) :
    ∀ (l : List ProviderRow) (errs : List (String × String))
      (att att2 : List String),
      ProviderManager.sweepGo env s t d l errs att = (.ok q, att2) →
      ∃ p, p ∈ l ∧ adapterFetch env p s t d = .ok q := by
  intro l
  induction l with
  | nil =>
    intro errs att att2 h
    simp [ProviderManager.sweepGo] at h
  | cons x rest ih =>
    intro errs att att2 h
    cases hx : adapterFetch env x s t d with
    | ok q2 =>
      simp only [ProviderManager.sweepGo, hx] at h
      have hq : q2 = q := by
        have := congrArg Prod.fst h
        simpa using this
      exact ⟨x, List.mem_cons_self x rest, by rw [hx, hq]⟩
    | error e =>
      simp only [ProviderManager.sweepGo, hx] at h
      obtain ⟨p, hp1, hp2⟩ := ih _ _ _ h
      exact ⟨p, List.mem_cons_of_mem x hp1, hp2⟩

theorem mem_insertByPrio {x p : ProviderRow} {l : List ProviderRow} :
    x ∈ insertByPrio p l ↔ x = p ∨ x ∈ l := by
  induction l with
  | nil => simp [insertByPrio]
  | cons q rest ih =>
    by_cases h : p.priority ≤ q.priority
    · simp [insertByPrio, if_pos h]
    · simp only [insertByPrio, if_neg h, List.mem_cons, ih]
      tauto

theorem mem_sortByPrio {x : ProviderRow} {l : List ProviderRow} :
    x ∈ sortByPrio l ↔ x ∈ l := by
  induction l with
  | nil => simp [sortByPrio]
  | cons q rest ih => simp [sortByPrio, mem_insertByPrio, ih]

theorem sorted_insertByPrio {p : ProviderRow} {l : List ProviderRow}
    (h : List.Sorted (fun a b : ProviderRow => a.priority ≤ b.priority) l) :
    List.Sorted (fun a b : ProviderRow => a.priority ≤ b.priority)
      (insertByPrio p l) := by
  induction l with
  | nil => simp [insertByPrio]
  | cons q rest ih =>
    rw [List.sorted_cons] at h
    by_cases hpq : p.priority ≤ q.priority
    · rw [insertByPrio, if_pos hpq, List.sorted_cons]
      refine ⟨?_, ?_⟩
      · intro b hb
        rcases List.mem_cons.mp hb with rfl | hb2
        · exact hpq
        · exact le_trans hpq (h.1 b hb2)
      · rw [List.sorted_cons]
        exact h
    · rw [insertByPrio, if_neg hpq, List.sorted_cons]
      refine ⟨?_, ih h.2⟩
      intro b hb
      rcases mem_insertByPrio.mp hb with rfl | hb2
      · exact Nat.le_of_lt (Nat.lt_of_not_le hpq)
      · exact h.1 b hb2

theorem sorted_sortByPrio (l : List ProviderRow) :
    List.Sorted (fun a b : ProviderRow => a.priority ≤ b.priority)
      (sortByPrio l) := by
  induction l with
  | nil => simp [sortByPrio]
  | cons q rest ih => exact sorted_insertByPrio ih

theorem mem_get_active_ordered {x : ProviderRow} {tbl : List ProviderRow} :
    x ∈ get_active_ordered tbl ↔ x ∈ tbl ∧ x.is_active = true := by
  rw [get_active_ordered, mem_sortByPrio, List.mem_filter]

theorem findProviderActive_some {tbl : List ProviderRow} {nm : String}
    {p : ProviderRow} (h : findProviderActive tbl nm = some p) :
    p ∈ tbl ∧ p.name = nm ∧ p.is_active = true := by
  induction tbl with
  | nil => simp [findProviderActive] at h
  | cons x rest ih =>
    by_cases hc : x.name = nm ∧ x.is_active
    · rw [findProviderActive, if_pos hc] at h
      injection h with h2
      subst h2
      exact ⟨List.mem_cons_self _ rest, hc.1, hc.2⟩
    · rw [findProviderActive, if_neg hc] at h
      obtain ⟨h1, h2, h3⟩ := ih h
      exact ⟨List.mem_cons_of_mem x h1, h2, h3⟩

theorem findProviderByName_isSome_of_mem {tbl : List ProviderRow}
    {p : ProviderRow} (h : p ∈ tbl) :
    ∃ p2, findProviderByName tbl p.name = some p2 := by
  induction tbl with
  | nil => simp at h
  | cons x rest ih =>
    by_cases hc : x.name = p.name
    · exact ⟨x, by rw [findProviderByName, if_pos hc]⟩
    · rcases List.mem_cons.mp h with rfl | h2
      · exact absurd rfl hc
      · obtain ⟨p2, hp2⟩ := ih h2
        exact ⟨p2, by rw [findProviderByName, if_neg hc]; exact hp2⟩

theorem pm_ok_cases {tbl : List ProviderRow} {env : Env} {s t : String}
    {d : Nat} {pa : Option String} {q : ExchangeRateData}
    (h : (ProviderManager.get_exchange_rate_data tbl env s t d pa).1 = .ok q) :
    ∃ p, p ∈ tbl ∧ adapterFetch env p s t d = .ok q ∧
      q.provider_name = some p.name ∧
      (∀ nm, pa = some nm → nm ≠ "" → p.name = nm) := by
  have unforced :
      (ProviderManager.get_exchange_rate_data tbl env s t d none).1 = .ok q →
      ∃ p, p ∈ tbl ∧ adapterFetch env p s t d = .ok q ∧
        q.provider_name = some p.name := by
    intro h2
    simp only [ProviderManager.get_exchange_rate_data] at h2
    by_cases hz : get_active_ordered tbl = []
    · rw [if_pos hz] at h2
      cases h2
    · rw [if_neg hz] at h2
      rcases hsg : ProviderManager.sweepGo env s t d (get_active_ordered tbl) [] []
        with ⟨res, att⟩
      rw [hsg] at h2
      replace h2 : res = .ok q := h2
      subst h2
      obtain ⟨p, hp1, hp2⟩ := sweepGo_ok_mem env s t d q _ _ _ _ hsg
      exact ⟨p, (mem_get_active_ordered.mp hp1).1, hp2, adapterFetch_ok_name hp2⟩
  rcases pa with _ | nm
  · obtain ⟨p, hp1, hp2, hp3⟩ := unforced h
    exact ⟨p, hp1, hp2, hp3, fun nm hnm => by cases hnm⟩
  · by_cases hnm : nm = ""
    · subst hnm
      have heq : ProviderManager.get_exchange_rate_data tbl env s t d (some "") =
          ProviderManager.get_exchange_rate_data tbl env s t d none := rfl
      rw [heq] at h
      obtain ⟨p, hp1, hp2, hp3⟩ := unforced h
      exact ⟨p, hp1, hp2, hp3,
        fun nm2 hnm2 hne => by cases hnm2; exact absurd rfl hne⟩
    · simp only [ProviderManager.get_exchange_rate_data, if_neg hnm] at h
      cases hfp : findProviderActive tbl nm with
      | none => rw [hfp] at h; cases h
      | some p =>
        rw [hfp] at h
        obtain ⟨hm, hn, _⟩ := findProviderActive_some hfp
        exact ⟨p, hm, h, adapterFetch_ok_name h,
          fun nm2 hnm2 _ => by cases hnm2; exact hn⟩

/-! ## Claim C1 — fallback order (corrected: no name tie-break) -/

/-- Provider table for the C1 counterexample: two active providers with
equal priority, stored with "mock" before "currencybeacon". -/
def c1tbl : List ProviderRow :=
  [⟨"mock", 1, true⟩, ⟨"currencybeacon", 1, true⟩]

/-- Adapter behaviour for the C1 counterexample: both providers succeed,
with distinct rates. -/
def c1env : Env :=
  fun nm => if nm = "mock" then .success (mkRat 2 1) else .success (mkRat 3 1)

/-- Counterexample to C1 as stated: with two active providers of equal
priority, both succeeding, the sweep does not break the tie by provider
name. "currencybeacon" sorts before "mock" by name, and forcing it would
yield a different quote, yet the un-forced sweep attempts "mock" first
(the storage order) and returns its quote. `order_by("priority")` in
`get_active_ordered` sorts by the priority column only. -/
theorem fallback_name_tiebreak_counterexample :
    ("currencybeacon".data < "mock".data) ∧
    c1tbl.map ProviderRow.priority = [1, 1] ∧
    (∀ x ∈ c1tbl, x.is_active = true) ∧
    ProviderManager.get_exchange_rate_data c1tbl c1env "USD" "EUR" 0 none =
      (.ok ⟨"USD", "EUR", 0, mkRat 2 1, some "mock"⟩, ["mock"]) ∧
    adapterFetch c1env ⟨"currencybeacon", 1, true⟩ "USD" "EUR" 0 =
      .ok ⟨"USD", "EUR", 0, mkRat 3 1, some "currencybeacon"⟩ ∧
    (⟨"USD", "EUR", 0, mkRat 2 1, some "mock"⟩ : ExchangeRateData) ≠
      ⟨"USD", "EUR", 0, mkRat 3 1, some "currencybeacon"⟩ := by
  decide

/-- C1 (amended): with no forced provider, the orchestrator tries the
active providers in ascending priority order — ties left in storage
order, not broken by name — and the first provider whose fetch succeeds
determines the returned quote; the attempted-provider list stops at that
provider, so no later provider is invoked. The order swept is exactly
`get_active_ordered`, which is sorted by priority and contains exactly
the active rows of the table. -/
theorem fallback_first_success (tbl : List ProviderRow) (env : Env)
    (s t : String) (d : Nat) (pre post : List ProviderRow)
    (p : ProviderRow) (q : ExchangeRateData)
    (hord : get_active_ordered tbl = pre ++ p :: post)
    (hpre : ∀ x ∈ pre, ∃ e, adapterFetch env x s t d = .error e)
    (hp : adapterFetch env p s t d = .ok q) :
    ProviderManager.get_exchange_rate_data tbl env s t d none =
      (.ok q, pre.map ProviderRow.name ++ [p.name]) ∧
    List.Sorted (fun a b : ProviderRow => a.priority ≤ b.priority)
      (get_active_ordered tbl) ∧
    (∀ x ∈ get_active_ordered tbl, x ∈ tbl ∧ x.is_active = true) := by
  refine ⟨?_, sorted_sortByPrio _, fun x hx => mem_get_active_ordered.mp hx⟩
  simp only [ProviderManager.get_exchange_rate_data]
  have hz : ¬(get_active_ordered tbl = []) := by simp [hord]
  rw [if_neg hz, hord]
  have hsw := sweepGo_prefix_ok env s t d q p pre post [] [] hpre hp
  simpa using hsw

/-- Provider table for the C1 witness: P1 = currencybeacon (priority 1,
will fail), P2 = mock (priority 2, will succeed), P3 = euronet
(priority 3, never reached). -/
def c1wtbl : List ProviderRow :=
  [⟨"currencybeacon", 1, true⟩, ⟨"mock", 2, true⟩, ⟨"euronet", 3, true⟩]

/-- Adapter behaviour for the C1 witness. -/
def c1wenv : Env :=
  fun nm => if nm = "mock" then .success (mkRat 9123 10000)
    else .apiError "network error"

/-- Witness for C1 (amended): P1 fails, so the sweep returns the quote
of P2; the attempted list is exactly [P1, P2] — P3 is never invoked. -/
theorem fallback_first_success_witness :
    ProviderManager.get_exchange_rate_data c1wtbl c1wenv "USD" "EUR" 0 none =
      (.ok ⟨"USD", "EUR", 0, mkRat 9123 10000, some "mock"⟩,
        ["currencybeacon", "mock"]) :=
  have h := fallback_first_success c1wtbl c1wenv "USD" "EUR" 0
    [⟨"currencybeacon", 1, true⟩] [⟨"euronet", 3, true⟩] ⟨"mock", 2, true⟩
    ⟨"USD", "EUR", 0, mkRat 9123 10000, some "mock"⟩
    (by decide)
    (by
      intro x hx
      rw [List.mem_singleton] at hx
      subst hx
      exact ⟨PyErr.apiClientError "network error", by decide⟩)
    (by decide)
  h.1.trans (by decide)

/-! ## Claim C2 — all-fail aggregation and empty provider list -/

/-- C2: when every active provider fails (n ≥ 1 of them), the
orchestrator raises the aggregate error whose failure map holds exactly
one entry per attempted provider, keyed by provider name, holding that
provider's recorded failure reason, in attempt order (the keys of the
map are exactly the attempted names, without duplicates); and with an
empty active-provider list it fails with the "No active providers
configured" error before attempting any fetch (empty attempt list). -/
theorem all_providers_failed_aggregation (tbl : List ProviderRow)
    (env : Env) (s t : String) (d : Nat) (f : ProviderRow → PyErr)
    (hfail : ∀ x ∈ get_active_ordered tbl, adapterFetch env x s t d = .error (f x))
    (hne : get_active_ordered tbl ≠ [])
    (hnd : ((get_active_ordered tbl).map ProviderRow.name).Nodup) :
    ProviderManager.get_exchange_rate_data tbl env s t d none =
      (.error (.allProvidersFailed "All providers failed"
        ((get_active_ordered tbl).map (fun x => (x.name, errEntry (f x))))),
       (get_active_ordered tbl).map ProviderRow.name) ∧
    ((get_active_ordered tbl).map (fun x => (x.name, errEntry (f x)))).map Prod.fst =
      (get_active_ordered tbl).map ProviderRow.name ∧
    (((get_active_ordered tbl).map (fun x => (x.name, errEntry (f x)))).map Prod.fst).Nodup ∧
    (∀ tbl2 : List ProviderRow, get_active_ordered tbl2 = [] →
      ProviderManager.get_exchange_rate_data tbl2 env s t d none =
        (.error (.allProvidersFailed "No active providers configured"
          [("configuration", "No active providers found in database")]), [])) := by
  have hmapfst :
      ((get_active_ordered tbl).map (fun x => (x.name, errEntry (f x)))).map Prod.fst =
        (get_active_ordered tbl).map ProviderRow.name := by
    rw [List.map_map]
    rfl
  refine ⟨?_, hmapfst, by rw [hmapfst]; exact hnd, ?_⟩
  · simp only [ProviderManager.get_exchange_rate_data]
    rw [if_neg hne]
    have hsw := sweepGo_all_fail env s t d f (get_active_ordered tbl) [] [] hfail
    simpa using hsw
  · intro tbl2 h2
    simp only [ProviderManager.get_exchange_rate_data]
    rw [if_pos h2]

/-- Provider table for the C2 witness. -/
def c2tbl : List ProviderRow :=
  [⟨"mock", 1, true⟩, ⟨"currencybeacon", 2, true⟩]

/-- Adapter behaviour for the C2 witness: an `APIClientError` from mock,
a non-API exception from currencybeacon. -/
def c2env : Env :=
  fun nm => if nm = "mock" then .apiError "timeout" else .otherError "boom"

/-- Witness for C2: both providers fail, and the aggregate error maps
each attempted provider name to its failure reason, in attempt order. -/
theorem all_providers_failed_aggregation_witness :
    ProviderManager.get_exchange_rate_data c2tbl c2env "USD" "EUR" 0 none =
      (.error (.allProvidersFailed "All providers failed"
        [("mock", "timeout"), ("currencybeacon", "Unexpected error: boom")]),
       ["mock", "currencybeacon"]) ∧
    ProviderManager.get_exchange_rate_data [⟨"mock", 1, false⟩] c2env "USD" "EUR" 0 none =
      (.error (.allProvidersFailed "No active providers configured"
        [("configuration", "No active providers found in database")]), []) :=
  have h := all_providers_failed_aggregation c2tbl c2env "USD" "EUR" 0
    (fun x => if x.name = "mock" then PyErr.apiClientError "timeout"
      else PyErr.otherError "boom")
    (by decide) (by decide) (by decide)
  ⟨h.1.trans (by decide), (h.2.2.2 [⟨"mock", 1, false⟩] (by decide)).trans (by decide)⟩

/-! ## Claim C3 — forced-provider bypass -/

/-- C3: with a forced (non-empty) provider name, a name that is absent
or inactive fails immediately with a `ValueError` and an empty attempt
list — no other provider is attempted; a name that is present and
active is fetched through its adapter alone, and whatever the adapter
call produces — quote or error — is returned unchanged: in particular
an adapter error is never the aggregate all-providers-failed error. -/
theorem forced_provider_bypass (tbl : List ProviderRow) (env : Env)
    (s t : String) (d : Nat) (nm : String) (hnm : nm ≠ "") :
    (findProviderActive tbl nm = none →
      ProviderManager.get_exchange_rate_data tbl env s t d (some nm) =
        (.error (.valueError ("Provider " ++ nm ++ " not found or not active")), [])) ∧
    (∀ p, findProviderActive tbl nm = some p →
      ProviderManager.get_exchange_rate_data tbl env s t d (some nm) =
        (adapterFetch env p s t d, [nm]) ∧
      ∀ m errs, adapterFetch env p s t d ≠ .error (.allProvidersFailed m errs)) := by
  constructor
  · intro hfp
    simp only [ProviderManager.get_exchange_rate_data, if_neg hnm, hfp]
  · intro p hfp
    refine ⟨?_, fun m errs => adapterFetch_not_aggregate env p s t d m errs⟩
    simp only [ProviderManager.get_exchange_rate_data, if_neg hnm, hfp]

/-- Provider table for the C3 witness: mock active, currencybeacon
present but inactive. -/
def c3tbl : List ProviderRow :=
  [⟨"mock", 1, true⟩, ⟨"currencybeacon", 2, false⟩]

/-- Adapter behaviour for the C3 witness: every adapter raises an
`APIClientError`. -/
def c3env : Env := fun _ => .apiError "boom"

/-- Witness for C3: forcing the inactive provider fails immediately with
no attempt; forcing the active provider propagates its adapter error
unchanged (not wrapped), with only that provider attempted. -/
theorem forced_provider_bypass_witness :
    ProviderManager.get_exchange_rate_data c3tbl c3env "USD" "EUR" 0
      (some "currencybeacon") =
      (.error (.valueError "Provider currencybeacon not found or not active"), []) ∧
    ProviderManager.get_exchange_rate_data c3tbl c3env "USD" "EUR" 0 (some "mock") =
      (.error (.apiClientError "boom"), ["mock"]) :=
  have h1 := (forced_provider_bypass c3tbl c3env "USD" "EUR" 0 "currencybeacon"
    (by decide)).1 (by decide)
  have h2 := (forced_provider_bypass c3tbl c3env "USD" "EUR" 0 "mock"
    (by decide)).2 ⟨"mock", 1, true⟩ (by decide)
  ⟨h1.trans (by decide), h2.1.trans (by decide)⟩

/-! ## Claim C6 — persistence failures and the fetched quote -/

/-- C6 (amended): when the resolver misses and the provider fetch
succeeds, then — provided the caller passed no provider name, or a
non-empty one — the service returns the fetched quote to the caller even
when it could not be cached: an unknown currency code makes `_store_rate`
log and skip the write (the rate table is left unchanged) without
failing the call. Only the un-guarded provider-row lookup between fetch
and store can escape, which the counterexample exhibits via the
empty-string provider name. -/
theorem _store_rate_skip {st : ServiceState} {q : ExchangeRateData}
    {prow : ProviderRow}
    (hcm : st.currencies.contains (upper q.source_currency) = false ∨
      st.currencies.contains (upper q.exchanged_currency) = false) :
    ExchangeRateService._store_rate st q prow = st.rates := by
  rw [ExchangeRateService._store_rate, if_neg]
  rintro ⟨h1, h2⟩
  rcases hcm with h | h
  · rw [h] at h1; cases h1
  · rw [h] at h2; cases h2

/-- C6 (amended): when the resolver misses and the provider fetch
succeeds, then — provided the caller passed no provider name, or a
non-empty one — the service returns the fetched quote to the caller even
when it could not be cached: an unknown currency code makes `_store_rate`
log and skip the write (the rate table is left unchanged) without
failing the call. Only the un-guarded provider-row lookup between fetch
and store can escape, which the counterexample exhibits via the
empty-string provider name. -/
theorem persistence_failure_swallowed (st : ServiceState) (env : Env)
    (s0 t0 : String) (d : Nat) (pa : Option String) (q : ExchangeRateData)
    (hmiss : CurrencyExchangeRateManager.get_rate st.rates (upper s0) (upper t0) d = none)
    (hfetch : (ProviderManager.get_exchange_rate_data st.providers env
      (upper s0) (upper t0) d pa).1 = .ok q)
    (hpa : pa = none ∨ ∃ nm, pa = some nm ∧ nm ≠ "") :
    ∃ st2 : ServiceState,
      ExchangeRateService.get_exchange_rate st env s0 t0 d pa = .ok (q, st2) ∧
      st2.currencies = st.currencies ∧ st2.providers = st.providers ∧
      ((st.currencies.contains (upper q.source_currency) = false ∨
        st.currencies.contains (upper q.exchanged_currency) = false) →
        st2 = st) := by
  obtain ⟨p, hmem, had, hname, hforced⟩ := pm_ok_cases hfetch
  rcases hpa with rfl | ⟨nm, rfl, hne⟩
  · obtain ⟨prow, hrow⟩ := findProviderByName_isSome_of_mem hmem
    refine ⟨{ st with rates := ExchangeRateService._store_rate st q prow },
      ?_, rfl, rfl, ?_⟩
    · simp only [ExchangeRateService.get_exchange_rate, hmiss, hfetch, hname, hrow]
    · intro hcm
      rw [_store_rate_skip hcm]
  · have hpn : p.name = nm := hforced nm rfl hne
    obtain ⟨prow, hrow0⟩ := findProviderByName_isSome_of_mem hmem
    rw [hpn] at hrow0
    refine ⟨{ st with rates := ExchangeRateService._store_rate st q prow },
      ?_, rfl, rfl, ?_⟩
    · simp only [ExchangeRateService.get_exchange_rate, hmiss, hfetch, hrow0]
    · intro hcm
      rw [_store_rate_skip hcm]

/-- Service state for the C6 witness: only "USD" is a known currency,
so the fetched USD→EUR quote cannot be cached. -/
def c6wst : ServiceState := ⟨["USD"], [], [⟨"mock", 1, true⟩]⟩

/-- Adapter behaviour for the C6 witness: every fetch succeeds. -/
def c6wenv : Env := fun _ => .success (mkRat 2 1)

/-- Witness for C6 (amended): the fetched quote is returned to the
caller even though the unknown target currency code makes the cache
write impossible; the store is left unchanged. -/
theorem persistence_failure_swallowed_witness :
    ExchangeRateService.get_exchange_rate c6wst c6wenv "USD" "EUR" 0 none =
      .ok (⟨"USD", "EUR", 0, mkRat 2 1, some "mock"⟩, c6wst) := by
  obtain ⟨st2, h1, _, _, h4⟩ := persistence_failure_swallowed c6wst c6wenv
    "USD" "EUR" 0 none ⟨"USD", "EUR", 0, mkRat 2 1, some "mock"⟩
    (by decide) (by decide) (Or.inl rfl)
  rw [h1, h4 (Or.inr (by decide))]

/-- Service state for the C6 counterexample: both currencies known, no
stored rate, a single active mock provider. -/
def c6st : ServiceState := ⟨["USD", "EUR"], [], [⟨"mock", 1, true⟩]⟩

/-- Adapter behaviour for the C6 counterexample: every fetch succeeds. -/
def c6env : Env := fun _ => .success (mkRat 2 1)

/-- Counterexample to C6 as stated: with the forced provider name given
as the empty string, the orchestrator treats it as un-forced (Python
truthiness) and fetches successfully, but the service then resolves the
provider row with `Provider.objects.get(name="")` outside any
try/except; the lookup fails and the error propagates — the caller does
not receive the successfully fetched quote. -/
theorem persistence_failure_counterexample :
    (ProviderManager.get_exchange_rate_data c6st.providers c6env
      "USD" "EUR" 0 (some "")).1 =
      .ok ⟨"USD", "EUR", 0, mkRat 2 1, some "mock"⟩ ∧
    ExchangeRateService.get_exchange_rate c6st c6env "USD" "EUR" 0 (some "") =
      .error (.doesNotExist "Provider") := by
  decide

/-! ## Claim C7 — conversion rounding (corrected: half-even, not half-up) -/

/-- C7 (amended): every successful conversion returns
`exchanged_amount = quantize6 (decMul amount rate)`: the product is
computed at full 28-significant-digit decimal precision and quantized to
6 fractional digits exactly once, at the end — with the decimal context
default rounding ROUND_HALF_EVEN, not half-up. -/
theorem conversion_single_rounding (st : ServiceState) (env : Env)
    (s t : String) (amount : ℚ) (dArg : Option Nat) (today : Nat)
    (res : ConversionResult) (st2 : ServiceState)
    (h : ExchangeRateService.convert_amount st env s t amount dArg today =
      .ok (res, st2)) :
    res.exchanged_amount = quantize6 (decMul amount res.rate) ∧
    res.source_amount = amount ∧
    res.valuation_date = dArg.getD today := by
  simp only [ExchangeRateService.convert_amount] at h
  cases hg : ExchangeRateService.get_exchange_rate st env s t (dArg.getD today) none with
  | error e => rw [hg] at h; simp at h
  | ok pr =>
    obtain ⟨q2, stx⟩ := pr
    rw [hg] at h
    have h2 := Except.ok.inj h
    rw [Prod.mk.injEq] at h2
    obtain ⟨h3, h4⟩ := h2
    subst h3
    exact ⟨rfl, rfl, rfl⟩

/-- Service state for the C7 witness: direct USD→EUR rate 1.234567. -/
def c7wst : ServiceState :=
  ⟨["USD", "EUR"], [⟨"USD", "EUR", 0, mkRat 1234567 1000000, "mock"⟩],
    [⟨"mock", 1, true⟩]⟩

/-- Adapter behaviour for C7: never consulted (the store answers). -/
def c7env : Env := fun _ => .apiError "unused"

/-- Conversion result for the C7 witness. -/
def c7res : ConversionResult :=
  ⟨"USD", "EUR", mkRat 1234567 1000000, mkRat 100 1, mkRat 1234567 10000, 0⟩

/-- Witness for C7 (amended): converting 100 at rate 1.234567 yields
exactly 123.456700, quantized once at the end. -/
theorem conversion_single_rounding_witness :
    ExchangeRateService.convert_amount c7wst c7env "USD" "EUR" (mkRat 100 1)
      (some 0) 5 = .ok (c7res, c7wst) ∧
    c7res.exchanged_amount = quantize6 (decMul (mkRat 100 1) c7res.rate) ∧
    quantize6 (decMul (mkRat 100 1) (mkRat 1234567 1000000)) = mkRat 1234567 10000 :=
  have h := conversion_single_rounding c7wst c7env "USD" "EUR" (mkRat 100 1)
    (some 0) 5 c7res c7wst (by decide)
  ⟨by decide, h.1, by decide⟩

/-- Service state for the C7 counterexample: direct USD→EUR rate
0.000005 (a representable 6-decimal rate). -/
def c7st : ServiceState :=
  ⟨["USD", "EUR"], [⟨"USD", "EUR", 0, mkRat 1 200000, "mock"⟩],
    [⟨"mock", 1, true⟩]⟩

/-- Conversion result the code produces at the C7 counterexample. -/
def c7cres : ConversionResult :=
  ⟨"USD", "EUR", mkRat 1 200000, mkRat 1 10, 0, 0⟩

/-- Counterexample to C7 as stated: converting 0.1 at rate 0.000005
gives the exact product 0.0000005, a tie at the 6th fractional digit.
Half-up rounding (the claim) yields 0.000001; the code's single
`quantize` call uses the decimal default ROUND_HALF_EVEN and yields
0.000000. -/
theorem conversion_half_up_counterexample :
    ExchangeRateService.convert_amount c7st c7env "USD" "EUR" (mkRat 1 10)
      (some 0) 0 = .ok (c7cres, c7st) ∧
    decMul (mkRat 1 10) (mkRat 1 200000) = mkRat 1 2000000 ∧
    specHalfUp6 (mkRat 1 2000000) = mkRat 1 1000000 ∧
    c7cres.exchanged_amount = 0 ∧
    (0 : ℚ) ≠ mkRat 1 1000000 := by
  decide

/-! ## Claim C10 — store-answered quotes carry no provider name -/

/-- C10: every call answered from the store (directly, by inverse, or by
cross rate — i.e. whenever the resolver returns a rate) produces a quote
whose provider_name is `none`, leaving the state untouched; and every
quote the orchestrator fetch path returns carries `some` provider
name. -/
theorem db_answered_quote_has_no_provider (st : ServiceState) (env : Env)
    (s0 t0 : String) (d : Nat) (pa : Option String) (r : ℚ)
    (hdb : CurrencyExchangeRateManager.get_rate st.rates (upper s0) (upper t0) d = some r) :
    ExchangeRateService.get_exchange_rate st env s0 t0 d pa =
      .ok (⟨upper s0, upper t0, d, r, none⟩, st) ∧
    (∀ q, (ProviderManager.get_exchange_rate_data st.providers env
        (upper s0) (upper t0) d pa).1 = .ok q →
      ∃ nm, q.provider_name = some nm) := by
  constructor
  · simp only [ExchangeRateService.get_exchange_rate, hdb]
  · intro q hq
    obtain ⟨p, _, _, hname, _⟩ := pm_ok_cases hq
    exact ⟨p.name, hname⟩

/-- Service state for the C10 witness. -/
def c10st : ServiceState :=
  ⟨["USD", "EUR"], [⟨"USD", "EUR", 0, mkRat 9 10, "mock"⟩], [⟨"mock", 1, true⟩]⟩

/-- Adapter behaviour for the C10 witness. -/
def c10env : Env := fun _ => .success (mkRat 2 1)

/-- Witness for C10: a store-answered call (lower-case input codes)
returns the stored rate with provider_name `none`. -/
theorem db_answered_quote_has_no_provider_witness :
    ExchangeRateService.get_exchange_rate c10st c10env "usd" "eur" 0 none =
      .ok (⟨"USD", "EUR", 0, mkRat 9 10, none⟩, c10st) :=
  have h := db_answered_quote_has_no_provider c10st c10env "usd" "eur" 0 none
    (mkRat 9 10) (by decide)
  h.1.trans (by decide)

/-! ## Claim C9 — mock adapter and the PRNG draw -/

theorem intRoundHalfEven_ge {a b c : ℤ} (hb : 0 < b) (h : c * b ≤ a) :
    c ≤ intRoundHalfEven a b := by
  have hq : c ≤ Int.ediv a b := (Int.le_ediv_iff_mul_le hb).mpr h
  simp only [intRoundHalfEven]
  split
  · exact hq
  · split
    · omega
    · split <;> omega

theorem intRoundHalfEven_le {a b c : ℤ} (hb : 0 < b) (h : a ≤ c * b) :
    intRoundHalfEven a b ≤ c := by
  have hq : Int.ediv a b ≤ c := by
    have h2 := Int.ediv_le_ediv hb h
    rwa [Int.mul_ediv_cancel c (ne_of_gt hb)] at h2
  have hmod : 0 ≤ Int.emod a b := Int.emod_nonneg a (ne_of_gt hb)
  have hdm : b * Int.ediv a b + Int.emod a b = a := Int.ediv_add_emod a b
  rcases lt_or_ge (Int.ediv a b) c with hlt | hge
  · simp only [intRoundHalfEven]
    split
    · omega
    · split
      · omega
      · split <;> omega
  · have hqc : Int.ediv a b = c := le_antisymm hq hge
    rw [hqc] at hdm
    have hr0 : Int.emod a b = 0 := by
      have hle : Int.emod a b ≤ 0 := by linarith [mul_comm b c, hdm, h]
      exact le_antisymm hle hmod
    simp only [intRoundHalfEven, hr0]
    rw [if_pos (by omega : (2 : ℤ) * 0 < b)]
    exact hq

/-- C9 (amended): the mock adapter's quote is a function of the fetch
arguments and the PRNG draw alone, with no network involved in the
model: the rate is exactly the draw formatted to 6 decimal places (so a
multiple of 10⁻⁶), it stays within the `random.uniform(0.5, 1.5)` range
whenever the draw does, the currency codes are the uppercased inputs,
and the provider is reported as "mock". Equal inputs do NOT guarantee
equal quotes across invocations, because the draw varies — the
counterexample exhibits this. -/
theorem mock_adapter_rate_characterization (u : ℚ) (s t : String) (d : Nat)
    (hu : uniformContract u) :
    (MockAdapter.get_exchange_rate_data u s t d).rate_value = quantize6 u ∧
    (∃ k : ℤ, quantize6 u = mkRat k 1000000) ∧
    mkRat 1 2 ≤ quantize6 u ∧ quantize6 u ≤ mkRat 3 2 ∧
    (MockAdapter.get_exchange_rate_data u s t d).source_currency = upper s ∧
    (MockAdapter.get_exchange_rate_data u s t d).exchanged_currency = upper t ∧
    (MockAdapter.get_exchange_rate_data u s t d).provider_name = some "mock" := by
  obtain ⟨hu1, hu2⟩ := hu
  have hdenpos : (0 : ℤ) < (u.den : ℤ) := by exact_mod_cast u.den_pos
  have hdenQ : (0 : ℚ) < (u.den : ℚ) := by exact_mod_cast u.den_pos
  have hmk12 : (mkRat 1 2 : ℚ) = (1 : ℚ) / 2 := by
    rw [Rat.mkRat_eq_divInt, Rat.divInt_eq_div]
    norm_num
  have hmk32 : (mkRat 3 2 : ℚ) = (3 : ℚ) / 2 := by
    rw [Rat.mkRat_eq_divInt, Rat.divInt_eq_div]
    norm_num
  have hua : (1 : ℚ) / 2 ≤ (u.num : ℚ) / (u.den : ℚ) := by
    rw [Rat.num_div_den]
    rw [hmk12] at hu1
    exact hu1
  have hub : (u.num : ℚ) / (u.den : ℚ) ≤ (3 : ℚ) / 2 := by
    rw [Rat.num_div_den]
    rw [hmk32] at hu2
    exact hu2
  rw [div_le_div_iff₀ (by norm_num) hdenQ] at hua
  rw [div_le_div_iff₀ hdenQ (by norm_num)] at hub
  have hz1 : (u.den : ℤ) ≤ 2 * u.num := by
    have h2 : (1 : ℤ) * (u.den : ℤ) ≤ u.num * 2 := by exact_mod_cast hua
    linarith
  have hz2 : u.num * 2 ≤ 3 * (u.den : ℤ) := by exact_mod_cast hub
  have hlow : 500000 ≤ intRoundHalfEven (u.num * 1000000) (u.den : ℤ) :=
    intRoundHalfEven_ge hdenpos (by linarith)
  have hhigh : intRoundHalfEven (u.num * 1000000) (u.den : ℤ) ≤ 1500000 :=
    intRoundHalfEven_le hdenpos (by linarith)
  refine ⟨rfl, ⟨intRoundHalfEven (u.num * 1000000) (u.den : ℤ), rfl⟩, ?_, ?_, rfl, rfl, rfl⟩
  · rw [hmk12, quantize6, Rat.mkRat_eq_divInt, Rat.divInt_eq_div]
    rw [div_le_div_iff₀ (by norm_num) (by norm_num)]
    have hc : (500000 : ℚ) ≤ (intRoundHalfEven (u.num * 1000000) (u.den : ℤ) : ℚ) := by
      exact_mod_cast hlow
    push_cast
    linarith
  · rw [hmk32, quantize6, Rat.mkRat_eq_divInt, Rat.divInt_eq_div]
    rw [div_le_div_iff₀ (by norm_num) (by norm_num)]
    have hc : ((intRoundHalfEven (u.num * 1000000) (u.den : ℤ) : ℚ)) ≤ 1500000 := by
      exact_mod_cast hhigh
    push_cast
    linarith

/-- Witness for C9 (amended) at the draw 0.75: the quote is fully
determined by the input and the draw. -/
theorem mock_adapter_rate_characterization_witness :
    uniformContract (mkRat 3 4) ∧
    MockAdapter.get_exchange_rate_data (mkRat 3 4) "usd" "eur" 7 =
      ⟨"USD", "EUR", 7, mkRat 3 4, some "mock"⟩ ∧
    mkRat 1 2 ≤ quantize6 (mkRat 3 4) ∧ quantize6 (mkRat 3 4) ≤ mkRat 3 2 :=
  have h := mock_adapter_rate_characterization (mkRat 3 4) "usd" "eur" 7 (by decide)
  ⟨by decide, by decide, h.2.2.1, h.2.2.2.1⟩

/-- Counterexample to C9 as stated: the mock adapter is not
deterministic per input. Its rate comes from the global PRNG
(`random.uniform(0.5, 1.5)`), so two invocations with the same
(source, target, date) input at two draws — both admissible for
`uniform(0.5, 1.5)` — return different quotes. -/
theorem mock_adapter_not_deterministic_counterexample :
    uniformContract (mkRat 1 2) ∧ uniformContract (mkRat 3 2) ∧
    MockAdapter.get_exchange_rate_data (mkRat 1 2) "USD" "EUR" 0 ≠
      MockAdapter.get_exchange_rate_data (mkRat 3 2) "USD" "EUR" 0 := by
  decide

end MyCurrency
